import Mathlib

/-!
Verification of the QuantStream trading-analytics backend.

Shallow embedding of the Python source under `backend/app/`:
timestamps are modelled as exact rational numbers of seconds since the
Unix epoch (Python `datetime` / `total_seconds()`), prices and sizes as
rationals, and fallible code as `Option`/`Except`.
-/

namespace QuantStream

/-- One normalized trade print (`app/ingestion/binance_ws.py` tick shape).
`ts` is seconds since the Unix epoch. -/
structure TickR where
  symbol : String
  ts : ℚ
  price : ℚ
  size : ℚ
deriving DecidableEq

/-- Value of a decimal digit character, `none` for non-digits. -/
def digitVal (c : Char) : Option ℕ :=
  if c.isDigit then some (c.toNat - 48) else none

/-- Parse a nonempty digit string into a natural number (model of Python
`int(...)` on digit strings). -/
def parseNatS (cs : List Char) : Option ℕ :=
  if cs.isEmpty then none
  else cs.foldl (fun acc c => acc.bind fun a => (digitVal c).map fun d => 10 * a + d) (some 0)

/-- Parse an optionally signed integer string (model of Python `int(...)`). -/
def parseIntS (cs : List Char) : Option ℤ :=
  match cs with
  | '-' :: rest => (parseNatS rest).map fun n => -(n : ℤ)
  | '+' :: rest => (parseNatS rest).map fun n => (n : ℤ)
  | _ => (parseNatS cs).map fun n => (n : ℤ)

/-- `ResamplingEngine._parse_timeframe`: `'s'` seconds, `'m'` minutes,
`'h'` hours; the result is the duration in seconds
(`timedelta.total_seconds()`); any other suffix raises `ValueError`,
modelled as `none`. -/
def parseTimeframe (tf : String) : Option ℤ :=
  match tf.data.getLast? with
  | none => none
  | some u =>
    match parseIntS tf.data.dropLast with
    | none => none
    | some v =>
      if u = 's' then some v
      else if u = 'm' then some (60 * v)
      else if u = 'h' then some (3600 * v)
      else none

/-- Python `int(...)` applied to a rational value: truncation toward zero. -/
def ratTrunc (q : ℚ) : ℤ :=
  if 0 ≤ q then ⌊q⌋ else ⌈q⌉

/-- Bucket start used by `ResamplingEngine._get_candle_timestamp`:
`int(seconds_since_epoch / candle_seconds) * candle_seconds`. -/
def bucketOf (T : ℚ) (t : ℚ) : ℚ :=
  (ratTrunc (t / T) : ℚ) * T

/-- `ResamplingEngine._get_candle_timestamp`: floor a timestamp to its
candle boundary for the given timeframe string. -/
def getCandleTimestamp (t : ℚ) (tf : String) : Option ℚ :=
  match parseTimeframe tf with
  | none => none
  | some n => some (bucketOf (n : ℚ) t)

example : parseTimeframe "1m" = some 60 := by decide
example : parseTimeframe "5m" = some 300 := by decide
example : parseTimeframe "1s" = some 1 := by decide
example : parseTimeframe "2h" = some 7200 := by decide
example : parseTimeframe "1x" = none := by decide
lemma ratTrunc_eq_floor {q : ℚ} (h : 0 ≤ q) : ratTrunc q = ⌊q⌋ := if_pos h

lemma bucketOf_le {T t : ℚ} (hT : 0 < T) (ht : 0 ≤ t) : bucketOf T t ≤ t := by
  rw [bucketOf, ratTrunc_eq_floor (div_nonneg ht hT.le)]
  calc (⌊t / T⌋ : ℚ) * T ≤ (t / T) * T :=
        mul_le_mul_of_nonneg_right (Int.floor_le _) hT.le
    _ = t := div_mul_cancel₀ t hT.ne'

lemma lt_bucketOf_add {T t : ℚ} (hT : 0 < T) (ht : 0 ≤ t) : t < bucketOf T t + T := by
  rw [bucketOf, ratTrunc_eq_floor (div_nonneg ht hT.le)]
  have h1 : t / T < (⌊t / T⌋ : ℚ) + 1 := Int.lt_floor_add_one _
  calc t = (t / T) * T := (div_mul_cancel₀ t hT.ne').symm
    _ < ((⌊t / T⌋ : ℚ) + 1) * T := mul_lt_mul_of_pos_right h1 hT
    _ = (⌊t / T⌋ : ℚ) * T + T := by ring

/-- Two integer multiples of a positive step that are strictly ordered are at
least one step apart. -/
lemma intMul_add_le_of_lt {T : ℚ} (hT : 0 < T) {a b : ℤ}
    (h : (a : ℚ) * T < (b : ℚ) * T) : (a : ℚ) * T + T ≤ (b : ℚ) * T := by
  have hab' : (a : ℚ) < (b : ℚ) := (mul_lt_mul_right hT).mp h
  have hab : a < b := by exact_mod_cast hab'
  have : ((a + 1 : ℤ) : ℚ) ≤ (b : ℚ) := by exact_mod_cast hab
  calc (a : ℚ) * T + T = ((a + 1 : ℤ) : ℚ) * T := by push_cast; ring
    _ ≤ (b : ℚ) * T := mul_le_mul_of_nonneg_right this hT.le

/-- **C3** (amended: timestamps at or after the Unix epoch).  For every
timestamp `t ≥ 0` and every timeframe string that parses to a positive
duration `n`, `_get_candle_timestamp` is the pure epoch-fixed flooring
`bucketOf`, and `bucket_start(t,T) ≤ t < bucket_start(t,T) + T`.
Purity/restart-invariance is definitional: the result depends on `t` and the
timeframe alone. -/
theorem c3_bucket_floor_bounds (t : ℚ) (tf : String) (n : ℤ)
    (hp : parseTimeframe tf = some n) (hpos : 0 < n) (ht : 0 ≤ t) :
    getCandleTimestamp t tf = some (bucketOf (n : ℚ) t) ∧
    bucketOf (n : ℚ) t ≤ t ∧ t < bucketOf (n : ℚ) t + (n : ℚ) := by
  have hT : (0 : ℚ) < (n : ℚ) := by exact_mod_cast hpos
  refine ⟨?_, bucketOf_le hT ht, lt_bucketOf_add hT ht⟩
  simp only [getCandleTimestamp, hp]

/-- **C3** counterexample to the claim as stated: for the pre-epoch timestamp
`t = -30 s` and timeframe `1m`, Python's `int()` truncates toward zero, so the
computed bucket start is `0`, and `bucket_start ≤ t` fails. -/
theorem c3_pre_epoch_counterexample :
    getCandleTimestamp (-30) "1m" = some 0 ∧ ¬ ((0 : ℚ) ≤ -30) := by
  constructor
  · have h : parseTimeframe "1m" = some 60 := by decide
    rw [getCandleTimestamp, h]
    norm_num [bucketOf, ratTrunc]
  · norm_num

/-- **C3** witness: the amended theorem applied at `t = 90 s`, timeframe `1m`. -/
theorem c3_witness :
    getCandleTimestamp 90 "1m" = some (bucketOf 60 90) ∧
    bucketOf 60 90 ≤ 90 ∧ (90 : ℚ) < bucketOf 60 90 + 60 := by
  have h := c3_bucket_floor_bounds 90 "1m" 60 (by decide) (by decide) (by norm_num)
  exact_mod_cast h

/-! ## Resampling engine (`app/analytics/resampling.py`) -/

/-- Stable insertion of a tick into a timestamp-sorted list. -/
def insertByTs (x : TickR) : List TickR → List TickR
  | [] => [x]
  | y :: ys => if x.ts ≤ y.ts then x :: y :: ys else y :: insertByTs x ys

/-- Sort ticks chronologically (the DataFrame's time index). -/
def sortByTs (l : List TickR) : List TickR :=
  l.foldr insertByTs []

/-- First-occurrence deduplication, preserving order (the distinct bucket
labels of the resampled index). -/
def dedupKeepFirst (l : List ℚ) : List ℚ :=
  l.foldl (fun acc b => if b ∈ acc then acc else acc ++ [b]) []

/-- One OHLC row as assembled in `_resample_symbol_timeframe` before
`db.insert_ohlc` (`ohlc_data` dict). -/
structure CandleData where
  symbol : String
  timeframe : String
  timestamp : ℚ
  «open» : ℚ
  high : ℚ
  low : ℚ
  close : ℚ
  volume : ℚ
  trade_count : ℕ
deriving DecidableEq

/-- Aggregate one bucket's ticks into a candle: `ohlc()` gives
first/max/min/last of price, `sum()` of size, `count()` of trades. -/
def mkCandle (sym tf : String) (b : ℚ) (sel : List TickR) : CandleData :=
  { symbol := sym, timeframe := tf, timestamp := b,
    «open» := (sel.head?.map TickR.price).getD 0,
    high := ((sel.map TickR.price).max?).getD 0,
    low := ((sel.map TickR.price).min?).getD 0,
    close := (sel.getLast?.map TickR.price).getD 0,
    volume := (sel.map TickR.size).sum,
    trade_count := sel.length }

/-- Bucket starts of the resampled frame that lie strictly before the bucket
containing `now`: the filter `ohlc.index < _get_candle_timestamp(now, tf)`. -/
def completeBuckets (T : ℚ) (ticks : List TickR) (now : ℚ) : List ℚ :=
  (dedupKeepFirst ((sortByTs ticks).map fun r => bucketOf T r.ts)).filter
    fun b => decide (b < bucketOf T now)

/-- One iteration of `ResamplingEngine._resample_symbol_timeframe` for an
already-fetched tick list.  `n` is the parsed timeframe duration in seconds
(the `delta` local), `last?` the in-memory `current_candles` entry.  Returns
the candle passed to `db.insert_ohlc` (if any) and the new tracker value. -/
def resampleCycle (sym tf : String) (n : ℤ) (ticks : List TickR) (now : ℚ)
    (last? : Option ℚ) : Option CandleData × Option ℚ :=
  if ticks.isEmpty then (none, last?) else
  match (completeBuckets (n : ℚ) ticks now).getLast? with
  | none => (none, last?)
  | some b =>
    if last? = some b then (none, last?)
    else
      (some (mkCandle sym tf b
        ((sortByTs ticks).filter fun r => decide (bucketOf (n : ℚ) r.ts = b))),
       some b)

lemma mem_of_getLast?_eq_some {α : Type _} {l : List α} {a : α}
    (h : l.getLast? = some a) : a ∈ l := by
  obtain ⟨hne, rfl⟩ := List.mem_getLast?_eq_getLast (Option.mem_def.mpr h)
  exact List.getLast_mem hne

lemma mem_foldl_dedup {l acc : List ℚ} {x : ℚ}
    (h : x ∈ l.foldl (fun acc b => if b ∈ acc then acc else acc ++ [b]) acc) :
    x ∈ acc ∨ x ∈ l := by
  induction l generalizing acc with
  | nil => exact Or.inl h
  | cons b l ih =>
    rw [List.foldl_cons] at h
    rcases ih h with h1 | h1
    · by_cases hb : b ∈ acc
      · rw [if_pos hb] at h1
        exact Or.inl h1
      · rw [if_neg hb] at h1
        rcases List.mem_append.mp h1 with h2 | h2
        · exact Or.inl h2
        · simp only [List.mem_singleton] at h2
          subst h2
          exact Or.inr (List.mem_cons_self _ _)
    · exact Or.inr (List.mem_cons_of_mem _ h1)

lemma mem_dedupKeepFirst {l : List ℚ} {x : ℚ} (h : x ∈ dedupKeepFirst l) :
    x ∈ l := by
  rcases mem_foldl_dedup h with h1 | h1
  · simp at h1
  · exact h1

/-- Every complete bucket is an integer multiple of the timeframe duration
strictly below the bucket containing `now`. -/
lemma completeBuckets_spec {T : ℚ} {ticks : List TickR} {now b : ℚ}
    (h : b ∈ completeBuckets T ticks now) :
    (∃ k : ℤ, b = (k : ℚ) * T) ∧ b < bucketOf T now := by
  obtain ⟨hmem, hlt⟩ := List.mem_filter.mp h
  refine ⟨?_, of_decide_eq_true hlt⟩
  obtain ⟨r, _, hr⟩ := List.mem_map.mp (mem_dedupKeepFirst hmem)
  exact ⟨ratTrunc (r.ts / T), hr.symm⟩

/-- **C2**: a resampling cycle only ever persists a candle whose bucket start
is strictly before "now floored to the timeframe", and the bucket containing
"now" is never written: the persisted bucket's whole interval
`[timestamp, timestamp + n)` lies before `now`. -/
theorem c2_incomplete_bucket_never_persisted (sym tf : String) (n : ℤ)
    (ticks : List TickR) (now : ℚ) (last? st : Option ℚ) (c : CandleData)
    (hpos : 0 < n) (hnow : 0 ≤ now)
    (h : resampleCycle sym tf n ticks now last? = (some c, st)) :
    c.timestamp < bucketOf (n : ℚ) now ∧ c.timestamp + (n : ℚ) ≤ now := by
  have hT : (0 : ℚ) < (n : ℚ) := by exact_mod_cast hpos
  unfold resampleCycle at h
  split at h
  · simp at h
  · split at h
    · simp at h
    · rename_i b heq
      split at h
      · simp at h
      · rw [Prod.mk.injEq] at h
        obtain ⟨h1, -⟩ := h
        rw [Option.some.injEq] at h1
        have hts : c.timestamp = b := by rw [← h1, mkCandle]
        obtain ⟨⟨k, hk⟩, hlt⟩ := completeBuckets_spec (mem_of_getLast?_eq_some heq)
        have hfloor : bucketOf (n : ℚ) now = (ratTrunc (now / (n : ℚ)) : ℚ) * (n : ℚ) := rfl
        have hstep : b + (n : ℚ) ≤ bucketOf (n : ℚ) now := by
          rw [hk, hfloor] at hlt ⊢
          exact intMul_add_le_of_lt hT hlt
        have hle : bucketOf (n : ℚ) now ≤ now := bucketOf_le hT hnow
        exact ⟨hts ▸ hlt, hts ▸ le_trans hstep hle⟩

/-- **C2** witness: with ticks at 30 s and 90 s, a 1-minute timeframe and
`now = 130 s`, the cycle persists the 60 s bucket, which closed at 120 s,
before `now`; the open 120 s bucket is not written. -/
theorem c2_witness :
    resampleCycle "btcusdt" "1m" 60 [⟨"btcusdt", 30, 1, 2⟩, ⟨"btcusdt", 90, 3, 4⟩]
        130 none
      = (some (mkCandle "btcusdt" "1m" 60 [⟨"btcusdt", 90, 3, 4⟩]), some 60) ∧
    (mkCandle "btcusdt" "1m" 60 [⟨"btcusdt", 90, 3, 4⟩]).timestamp
        < bucketOf ((60 : ℤ) : ℚ) 130 ∧
    (mkCandle "btcusdt" "1m" 60 [⟨"btcusdt", 90, 3, 4⟩]).timestamp
        + ((60 : ℤ) : ℚ) ≤ 130 := by
  have heval :
      resampleCycle "btcusdt" "1m" 60 [⟨"btcusdt", 30, 1, 2⟩, ⟨"btcusdt", 90, 3, 4⟩]
          130 none
        = (some (mkCandle "btcusdt" "1m" 60 [⟨"btcusdt", 90, 3, 4⟩]), some 60) := by
    norm_num [resampleCycle, completeBuckets, sortByTs, insertByTs, dedupKeepFirst,
      bucketOf, ratTrunc]
    exact fun h => absurd h (by simp)
  have hb := c2_incomplete_bucket_never_persisted "btcusdt" "1m" 60
    [⟨"btcusdt", 30, 1, 2⟩, ⟨"btcusdt", 90, 3, 4⟩] 130 none (some 60)
    (mkCandle "btcusdt" "1m" 60 [⟨"btcusdt", 90, 3, 4⟩])
    (by decide) (by norm_num) heval
  exact ⟨heval, hb.1, hb.2⟩

/-! ## Storage upsert (`app/storage/database.py`, `Database.insert_ohlc`)

The OHLC table (`app/storage/models.py`) is modelled as a list of rows; the
`(symbol, timeframe, timestamp)` uniqueness constraint `uix_ohlc` appears as
the hypothesis that at most one stored row carries a given key. -/

/-- The `(symbol, timeframe, timestamp)` key comparison of the
`select ... where` in `insert_ohlc`. -/
def sameKey (d r : CandleData) : Prop :=
  r.symbol = d.symbol ∧ r.timeframe = d.timeframe ∧ r.timestamp = d.timestamp

instance (d r : CandleData) : Decidable (sameKey d r) := by
  unfold sameKey; infer_instance

/-- Overwrite the OHLC payload fields of an existing row in place, as the
update branch of `insert_ohlc` does (key fields untouched). -/
def overwriteRow (d r : CandleData) : CandleData :=
  { r with
    «open» := d.«open»
    high := d.high
    low := d.low
    close := d.close
    volume := d.volume
    trade_count := d.trade_count }

/-- Update a row if it carries the key, leave it alone otherwise. -/
def applyOverwrite (d r : CandleData) : CandleData :=
  if sameKey d r then overwriteRow d r else r

/-- `Database.insert_ohlc`: look up the row with the candle's key
(`scalar_one_or_none`, which raises on a duplicated key — modelled as
`Except.error`), update it in place if present, else append a new row. -/
def insertOhlc (d : CandleData) (store : List CandleData) :
    Except String (List CandleData) :=
  match store.filter fun r => decide (sameKey d r) with
  | [] => .ok (store ++ [d])
  | [_] => .ok (store.map (applyOverwrite d))
  | _ => .error "MultipleResultsFound"

lemma sameKey_overwriteRow (d r : CandleData) :
    sameKey d (overwriteRow d r) ↔ sameKey d r := Iff.rfl

lemma applyOverwrite_key (d r : CandleData) :
    decide (sameKey d (applyOverwrite d r)) = decide (sameKey d r) := by
  unfold applyOverwrite
  split
  · exact decide_eq_decide.mpr (sameKey_overwriteRow d r)
  · rfl

lemma applyOverwrite_idem (d r : CandleData) :
    applyOverwrite d (applyOverwrite d r) = applyOverwrite d r := by
  unfold applyOverwrite
  split
  · rename_i hkey
    rw [if_pos ((sameKey_overwriteRow d r).mpr hkey)]
    rfl
  · rfl

lemma applyOverwrite_self (d : CandleData) : applyOverwrite d d = d := by
  rw [applyOverwrite, if_pos ⟨rfl, rfl, rfl⟩]
  rfl

/-- What C1 requires of the store after the first upsert of `d`: upserting `d`
again is a pure overwrite returning the very same store, the key occurs in
exactly one row, and that row holds `d`'s OHLC values. -/
def upsertSpec (d : CandleData) (s1 : List CandleData) : Prop :=
  insertOhlc d s1 = .ok s1 ∧
  (s1.filter fun r => decide (sameKey d r)).length = 1 ∧
  ∀ r ∈ s1, sameKey d r →
    r.«open» = d.«open» ∧ r.high = d.high ∧ r.low = d.low ∧
    r.close = d.close ∧ r.volume = d.volume ∧ r.trade_count = d.trade_count

lemma filter_map_applyOverwrite (d : CandleData) (l : List CandleData) :
    (l.map (applyOverwrite d)).filter (fun r => decide (sameKey d r))
      = (l.filter fun r => decide (sameKey d r)).map (applyOverwrite d) := by
  rw [List.filter_map]
  congr 1
  apply List.filter_congr
  intro r _
  exact applyOverwrite_key d r

/-- **C1**: under the storage uniqueness invariant, upserting a candle leaves
exactly one row for its `(instrument, timeframe, bucket_start)` key, that row
carries exactly the written OHLC values, and re-upserting the same candle —
e.g. after re-running the (pure, deterministic) resampling computation on the
same ticks — is a no-op overwrite, never a duplicate row. -/
theorem c1_upsert_idempotent_unique (store : List CandleData) (d : CandleData)
    (hu : (store.filter fun r => decide (sameKey d r)).length ≤ 1)
    (s1 : List CandleData) (h : insertOhlc d store = .ok s1) :
    upsertSpec d s1 := by
  have hself : decide (sameKey d d) = true := decide_eq_true ⟨rfl, rfl, rfl⟩
  rcases hm : store.filter fun r => decide (sameKey d r) with - | ⟨a, - | ⟨a2, tl⟩⟩
  · -- no existing row: a fresh row is appended
    unfold insertOhlc at h
    rw [hm] at h
    rw [Except.ok.injEq] at h
    subst h
    have hnone : ∀ r ∈ store, ¬ sameKey d r := by
      intro r hr hk
      have : r ∈ store.filter fun r => decide (sameKey d r) :=
        List.mem_filter.mpr ⟨hr, decide_eq_true hk⟩
      rw [hm] at this
      exact absurd this (List.not_mem_nil r)
    have hfil : ((store ++ [d]).filter fun r => decide (sameKey d r)) = [d] := by
      rw [List.filter_append, hm]
      simp [hself]
    refine ⟨?_, by rw [hfil]; rfl, ?_⟩
    · unfold insertOhlc
      rw [hfil, Except.ok.injEq]
      refine (List.map_congr_left ?_).trans (List.map_id _)
      intro r hr
      show applyOverwrite d r = r
      rcases List.mem_append.mp hr with hr | hr
      · exact if_neg (hnone r hr)
      · rw [List.mem_singleton] at hr
        rw [hr]
        exact applyOverwrite_self _
    · intro r hr hk
      have : r ∈ ((store ++ [d]).filter fun x => decide (sameKey d x)) :=
        List.mem_filter.mpr ⟨hr, decide_eq_true hk⟩
      rw [hfil, List.mem_singleton] at this
      subst this
      exact ⟨rfl, rfl, rfl, rfl, rfl, rfl⟩
  · -- exactly one existing row: fields are overwritten in place
    unfold insertOhlc at h
    rw [hm] at h
    rw [Except.ok.injEq] at h
    subst h
    have hfil : ((store.map (applyOverwrite d)).filter
        fun r => decide (sameKey d r)) = [applyOverwrite d a] := by
      rw [filter_map_applyOverwrite, hm]
      rfl
    have hfields : ∀ r ∈ store.map (applyOverwrite d), sameKey d r →
        r.«open» = d.«open» ∧ r.high = d.high ∧ r.low = d.low ∧
        r.close = d.close ∧ r.volume = d.volume ∧ r.trade_count = d.trade_count := by
      intro r hr hk
      obtain ⟨r0, hr0, rfl⟩ := List.mem_map.mp hr
      by_cases hk0 : sameKey d r0
      · rw [applyOverwrite, if_pos hk0]
        exact ⟨rfl, rfl, rfl, rfl, rfl, rfl⟩
      · rw [applyOverwrite, if_neg hk0] at hk
        exact absurd hk hk0
    refine ⟨?_, by rw [hfil]; rfl, hfields⟩
    unfold insertOhlc
    rw [hfil, Except.ok.injEq, List.map_map]
    apply List.map_congr_left
    intro r _
    exact applyOverwrite_idem d r
  · -- two or more rows with one key: ruled out by the uniqueness invariant
    rw [hm] at hu
    simp at hu

/-- **C1** witness: upserting a concrete candle into an empty store. -/
theorem c1_witness :
    upsertSpec ⟨"btcusdt", "1m", 60, 1, 3, 1, 3, 6, 2⟩
      [⟨"btcusdt", "1m", 60, 1, 3, 1, 3, 6, 2⟩] :=
  c1_upsert_idempotent_unique [] ⟨"btcusdt", "1m", 60, 1, 3, 1, 3, 6, 2⟩
    (by simp) [⟨"btcusdt", "1m", 60, 1, 3, 1, 3, 6, 2⟩] rfl

/-! ## Exchange stream client (`app/ingestion/binance_ws.py`) -/

/-- A parsed inbound vendor JSON message.  A field is `none` when the key is
absent; for `p`/`q` also when the string does not parse as a float (either
way the Python code raises inside the per-message `try` and the message is
skipped). -/
structure RawMsg where
  e : Option String
  T : Option ℤ
  E : Option ℤ
  s : Option String
  p : Option ℚ
  q : Option ℚ
deriving DecidableEq

/-- Python `str.lower()`, modelled character-wise. -/
def strLower (s : String) : String := ⟨s.data.map Char.toLower⟩

/-- `datetime.fromtimestamp(x)` converts POSIX seconds to a naive datetime in
the process's LOCAL timezone: as seconds since the epoch its value is
`x + tzOffset` where `tzOffset` is the local UTC offset.
(`datetime.utcfromtimestamp` would give `x` itself.) -/
def fromtimestampLocal (x tzOffset : ℚ) : ℚ := x + tzOffset

/-- `BinanceWebSocketClient._normalize_tick`: timestamp from `T` (falling
back to `E`) interpreted as milliseconds, symbol lower-cased, price and size
parsed to floats; a missing/unparsable field raises, modelled as `none`. -/
def normalizeTick (tzOffset : ℚ) (m : RawMsg) : Option TickR :=
  match m.T.or m.E, m.s, m.p, m.q with
  | some tms, some sy, some pr, some qt =>
      some { symbol := strLower sy,
             ts := fromtimestampLocal ((tms : ℚ) / 1000) tzOffset,
             price := pr, size := qt }
  | _, _, _, _ => none

/-- The per-message body of `_connect_symbol`: the callback fires exactly
when this returns `some tick` — only for `e == "trade"` messages that
normalize cleanly; all failures are caught and skipped. -/
def processMessage (tzOffset : ℚ) (m : RawMsg) : Option TickR :=
  if m.e = some "trade" then normalizeTick tzOffset m else none

/-- **C4** (code bug): the callback fires only for `e == "trade"` messages,
the symbol is lower-cased and price/quantity parsed — but the vendor
millisecond epoch is converted with `datetime.fromtimestamp`, which yields
LOCAL time, not UTC: in a process with UTC offset `+19800 s`
(Asia/Kolkata) the delivered timestamp is `T/1000 + 19800`, not the UTC
value `T/1000` that the spec (and the `datetime.utcnow()`-based rest of the
pipeline) requires. -/
theorem c4_fromtimestamp_is_local_not_utc :
    processMessage 19800
        ⟨some "trade", some 1700000000000, none, some "BTCUSDT",
          some 50000, some (1/1000)⟩
      = some ⟨"btcusdt", 1700000000 + 19800, 50000, 1/1000⟩ ∧
    (1700000000 + 19800 : ℚ) ≠ 1700000000 ∧
    (∀ m : RawMsg, m.e = some "trade" ∨ processMessage 19800 m = none) ∧
    processMessage 19800
        ⟨some "aggTrade", some 1700000000000, none, some "BTCUSDT",
          some 50000, some (1/1000)⟩ = none ∧
    processMessage 19800
        ⟨some "trade", some 1700000000000, none, some "BTCUSDT",
          none, some (1/1000)⟩ = none := by
  refine ⟨?_, by norm_num, ?_, rfl, rfl⟩
  · have hred : processMessage 19800
        ⟨some "trade", some 1700000000000, none, some "BTCUSDT",
          some 50000, some (1/1000)⟩
        = some ⟨strLower "BTCUSDT",
            fromtimestampLocal ((1700000000000 : ℚ) / 1000) 19800,
            50000, 1/1000⟩ := rfl
    rw [hred, Option.some.injEq]
    simp only [TickR.mk.injEq]
    refine ⟨by decide, ?_, trivial, trivial⟩
    rw [fromtimestampLocal]
    norm_num
  · intro m
    by_cases he : m.e = some "trade"
    · exact Or.inl he
    · exact Or.inr (by rw [processMessage, if_neg he])

/-- State of the stream client relevant to symbol removal: the global
`running` flag and the tracked `symbols` list. -/
structure WsState where
  running : Bool
  symbols : List String
deriving DecidableEq

/-- `BinanceWebSocketClient.remove_symbol`: lower-case the symbol and drop it
from `self.symbols` if tracked; nothing else is mutated. -/
def removeSymbol (sym : String) (st : WsState) : WsState :=
  if strLower sym ∈ st.symbols then
    { st with symbols := st.symbols.erase (strLower sym) }
  else st

/-- The continue-condition of `_connect_symbol`'s `while` loop (and of its
inner `if not self.running: break` check): it reads only the client-global
`running` flag; the symbol argument and `self.symbols` are never consulted. -/
def connectLoopContinues (st : WsState) (_sym : String) : Bool := st.running

/-- **C5** (code bug): `remove_symbol` edits only the symbols list, while the
removed instrument's connection loop keeps running — its guard is the global
`running` flag, which removal leaves `true` — so ticks keep being delivered;
the claim (and the comment in `remove_symbol` itself) says the loop exits on
its next iteration. -/
theorem c5_remove_symbol_does_not_stop_loop :
    (∀ (st : WsState) (sym : String),
        connectLoopContinues (removeSymbol sym st) sym = st.running) ∧
    removeSymbol "btcusdt" ⟨true, ["btcusdt", "ethusdt"]⟩ = ⟨true, ["ethusdt"]⟩ ∧
    connectLoopContinues
        (removeSymbol "btcusdt" ⟨true, ["btcusdt", "ethusdt"]⟩) "btcusdt" = true := by
  have hgen : ∀ (st : WsState) (sym : String),
      connectLoopContinues (removeSymbol sym st) sym = st.running := by
    intro st sym
    unfold connectLoopContinues removeSymbol
    split <;> rfl
  refine ⟨hgen, ?_, hgen _ _⟩
  rw [removeSymbol, if_pos (by decide)]
  show WsState.mk true (["btcusdt", "ethusdt"].erase (strLower "btcusdt")) = _
  decide

/-! ## Alert engine (`app/alerts/alert_engine.py`) -/

/-- `AlertEngine._evaluate_condition`: comparison dispatch; `==` uses an
absolute epsilon of `0.0001`, any unknown condition yields `False`. -/
def evaluateCondition (value : ℚ) (condition : String) (threshold : ℚ) : Bool :=
  if condition = ">" then decide (value > threshold)
  else if condition = "<" then decide (value < threshold)
  else if condition = ">=" then decide (value ≥ threshold)
  else if condition = "<=" then decide (value ≤ threshold)
  else if condition = "==" then decide (|value - threshold| < 0.0001)
  else false

/-- **C8**: the `==` condition triggers exactly when `|value − threshold| <
1e-4`; with threshold `100.0` it triggers at `100.00005` and not at
`100.001`. -/
theorem c8_epsilon_equality :
    (∀ value threshold : ℚ,
        evaluateCondition value "==" threshold
          = decide (|value - threshold| < 0.0001)) ∧
    evaluateCondition 100.00005 "==" 100.0 = true ∧
    evaluateCondition 100.001 "==" 100.0 = false := by
  have hgen : ∀ value threshold : ℚ,
      evaluateCondition value "==" threshold
        = decide (|value - threshold| < 0.0001) := fun v t => rfl
  refine ⟨hgen, ?_, ?_⟩
  · rw [hgen, decide_eq_true_eq]
    rw [show (100.00005 : ℚ) - 100.0 = 0.00005 by norm_num]
    rw [abs_of_pos (by norm_num)]
    norm_num
  · rw [hgen]
    rw [decide_eq_false_iff_not]
    rw [show (100.001 : ℚ) - 100.0 = 0.001 by norm_num]
    rw [abs_of_pos (by norm_num)]
    norm_num

/-! ## Redis tick cache (`app/storage/redis_client.py`) -/

/-- `RedisCache.push_tick`: `LPUSH` then `LTRIM 0 (max_size-1)` — prepend the
tick and keep the newest `max_size` entries (list head = newest). -/
def pushTick {α : Type _} (maxSize : ℕ) (t : α) (l : List α) : List α :=
  (t :: l).take maxSize

/-- The cache list after pushing the ticks of `xs` in chronological order. -/
def buildCache {α : Type _} (maxSize : ℕ) (xs : List α) : List α :=
  xs.foldl (fun l t => pushTick maxSize t l) []

/-- `RedisCache.get_recent_ticks`: `LRANGE 0 (count-1)` (the newest `count`
entries, newest first) followed by Python's `reversed(...)`. -/
def getRecentTicks {α : Type _} (count : ℕ) (l : List α) : List α :=
  (l.take count).reverse

/-- The spec's words for C9: the most recent `count` ticks ordered
most-recent-first. -/
def specMostRecentFirst {α : Type _} (xs : List α) (count : ℕ) : List α :=
  xs.reverse.take count

lemma buildCache_eq_reverse {α : Type _} (maxSize : ℕ) :
    ∀ (xs acc : List α), xs.length + acc.length ≤ maxSize →
      xs.foldl (fun l t => pushTick maxSize t l) acc = xs.reverse ++ acc := by
  intro xs
  induction xs with
  | nil => intro acc _; simp
  | cons x xs ih =>
    intro acc h
    rw [List.foldl_cons]
    have hstep : pushTick maxSize x acc = x :: acc := by
      rw [pushTick]
      apply List.take_of_length_le
      simp only [List.length_cons] at h ⊢
      omega
    rw [hstep]
    rw [ih (x :: acc) (by simp only [List.length_cons] at h ⊢; omega)]
    simp

/-- **C9** (amended): `get_recent_ticks` returns the most recent `count`
cached ticks, but in chronological order — most-recent-LAST (the reverse of
the claimed most-recent-first order), matching `db.get_ticks`'s
chronological convention. -/
theorem c9_get_recent_ticks_chronological {α : Type _} (xs : List α)
    (count maxSize : ℕ) (h : xs.length ≤ maxSize) :
    getRecentTicks count (buildCache maxSize xs)
      = (specMostRecentFirst xs count).reverse := by
  rw [buildCache, buildCache_eq_reverse maxSize xs [] (by simpa using h)]
  rw [List.append_nil]
  rfl

/-- **C9** counterexample to the claim as stated: push tick `1` then tick `2`
(so `2` is most recent); `get_recent_ticks 2` returns `[1, 2]`, whereas
most-recent-first order would be `[2, 1]`. -/
theorem c9_counterexample :
    getRecentTicks 2 (buildCache 1000 [(1 : ℕ), 2]) = [1, 2] ∧
    specMostRecentFirst [(1 : ℕ), 2] 2 = [2, 1] ∧
    getRecentTicks 2 (buildCache 1000 [(1 : ℕ), 2])
      ≠ specMostRecentFirst [(1 : ℕ), 2] 2 := by decide

/-- **C9** witness for the amended theorem at a concrete cache history. -/
theorem c9_witness :
    getRecentTicks 2 (buildCache 1000 [(10 : ℕ), 20, 30])
      = (specMostRecentFirst [(10 : ℕ), 20, 30] 2).reverse ∧
    (specMostRecentFirst [(10 : ℕ), 20, 30] 2).reverse = [20, 30] :=
  ⟨c9_get_recent_ticks_chronological [10, 20, 30] 2 1000 (by decide), by decide⟩

/-! ## Basic statistics (`app/analytics/basic_stats.py`) -/

/-- Arithmetic mean (0 for the empty list, where pandas would give NaN). -/
def listMean (xs : List ℚ) : ℚ := xs.sum / xs.length

/-- Sample variance with `ddof = 1`, as pandas `std()**2` (0 for lists of
length ≤ 1, where pandas would give NaN). -/
def sampleVar (xs : List ℚ) : ℚ :=
  (xs.map fun x => (x - listMean xs) ^ 2).sum / ((xs.length : ℚ) - 1)

/-- pandas `Series.std()` (ddof 1): the square root of the sample variance. -/
noncomputable def sampleStd (xs : List ℚ) : ℝ :=
  Real.sqrt ((sampleVar xs : ℚ) : ℝ)

/-- The last `w` entries of a list: a rolling window's view at `iloc[-1]`. -/
def lastWindow (w : ℕ) (xs : List ℚ) : List ℚ := xs.drop (xs.length - w)

/-- pandas `pct_change()` with the leading NaN dropped: bar-over-bar
percentage returns. -/
def pctChange (closes : List ℚ) : List ℚ :=
  (closes.zip closes.tail).map fun p => (p.2 - p.1) / p.1

/-- `compute_volatility`'s annualization constant:
`365 * 24 * (60 if timeframe.endswith('m') else 1)`. -/
def periodsPerYear (tf : String) : ℕ :=
  365 * 24 * (if tf.data.getLast? = some 'm' then 60 else 1)

/-- The record returned by `compute_volatility` on the success path.
`rolling_volatility` is `none` when the rolling window would cover the
leading NaN of the returns column (pandas yields NaN there). -/
structure VolatilityResult where
  symbol : String
  timeframe : String
  historical_volatility : ℝ
  rolling_volatility : Option ℝ
  window : ℕ

/-- `compute_volatility`: guard `not ohlc_data or len(ohlc_data) < window`,
returns from `pct_change`, annualized historical and rolling volatility
`std * sqrt(periods_per_year) * 100`. -/
noncomputable def computeVolatility (symbol : String) (closes : List ℚ)
    (tf : String) (window : ℕ) : Option VolatilityResult :=
  if closes.isEmpty ∨ closes.length < window then none
  else
    some { symbol := symbol
           timeframe := tf
           historical_volatility :=
             sampleStd (pctChange closes)
               * Real.sqrt ((periodsPerYear tf : ℕ) : ℝ) * 100
           rolling_volatility :=
             if window ≤ (pctChange closes).length then
               some (sampleStd (lastWindow window (pctChange closes))
                 * Real.sqrt ((periodsPerYear tf : ℕ) : ℝ) * 100)
             else none
           window := window }

/-- **C6** (amended): volatility annualizes with `365·24·60` periods per year
exactly when the timeframe string ends in `'m'` (minutes) and with `365·24`
otherwise — including seconds timeframes such as `1s`, contrary to the
claimed "seconds or minutes" rule — and historical volatility is
`stdev(returns) · sqrt(periods_per_year) · 100`. -/
theorem c6_annualization_ends_with_m (symbol : String) (closes : List ℚ)
    (tf : String) (window : ℕ) (r : VolatilityResult)
    (h : computeVolatility symbol closes tf window = some r) :
    r.historical_volatility
      = sampleStd (pctChange closes)
          * Real.sqrt ((periodsPerYear tf : ℕ) : ℝ) * 100 ∧
    periodsPerYear tf = (if tf.data.getLast? = some 'm' then 525600 else 8760) := by
  refine ⟨?_, ?_⟩
  · unfold computeVolatility at h
    split at h
    · exact Option.noConfusion h
    · rw [Option.some.injEq] at h
      rw [← h]
  · rw [periodsPerYear]
    split <;> rfl

/-- **C6** counterexample to the claim as stated: for the seconds timeframe
`1s` (a supported `RESAMPLE_INTERVALS` entry) with closes `[1, 2, 3]` and
window 2, the code annualizes with `365·24 = 8760`, not the claimed
`365·24·60 = 525600`, and the two volatility values differ. -/
theorem c6_counterexample :
    (computeVolatility "btcusdt" [1, 2, 3] "1s" 2).map
        VolatilityResult.historical_volatility
      = some (sampleStd (pctChange [1, 2, 3]) * Real.sqrt 8760 * 100) ∧
    sampleStd (pctChange [1, 2, 3]) * Real.sqrt 8760 * 100
      ≠ sampleStd (pctChange [1, 2, 3]) * Real.sqrt 525600 * 100 := by
  have hvar : sampleVar (pctChange [1, 2, 3]) = 1/8 := by
    norm_num [pctChange, sampleVar, listMean]
  have hs : sampleStd (pctChange [1, 2, 3]) = Real.sqrt (1/8) := by
    rw [sampleStd, hvar]
    norm_num
  have hppy : periodsPerYear "1s" = 8760 := by decide
  constructor
  · have hred : computeVolatility "btcusdt" [1, 2, 3] "1s" 2
        = some { symbol := "btcusdt", timeframe := "1s"
                 historical_volatility :=
                   sampleStd (pctChange [1, 2, 3])
                     * Real.sqrt ((periodsPerYear "1s" : ℕ) : ℝ) * 100
                 rolling_volatility :=
                   some (sampleStd (lastWindow 2 (pctChange [1, 2, 3]))
                     * Real.sqrt ((periodsPerYear "1s" : ℕ) : ℝ) * 100)
                 window := 2 } := rfl
    rw [hred, Option.map_some']
    rw [hppy]
    norm_num
  · rw [hs]
    have h1 : (0 : ℝ) < Real.sqrt (1/8) := Real.sqrt_pos.mpr (by norm_num)
    have h2 : Real.sqrt 8760 < Real.sqrt 525600 :=
      Real.sqrt_lt_sqrt (by norm_num) (by norm_num)
    exact ne_of_lt (by nlinarith [Real.sqrt_nonneg (8760 : ℝ)])

/-- **C6** witness for the amended theorem: minutes timeframe `1m`,
closes `[1, 2, 3]`, window 2; the annualization constant is `525600`. -/
theorem c6_witness :
    computeVolatility "btcusdt" [1, 2, 3] "1m" 2
      = some { symbol := "btcusdt", timeframe := "1m"
               historical_volatility :=
                 sampleStd (pctChange [1, 2, 3])
                   * Real.sqrt ((periodsPerYear "1m" : ℕ) : ℝ) * 100
               rolling_volatility :=
                 some (sampleStd (lastWindow 2 (pctChange [1, 2, 3]))
                   * Real.sqrt ((periodsPerYear "1m" : ℕ) : ℝ) * 100)
               window := 2 } ∧
    periodsPerYear "1m" = 525600 := by
  have h := c6_annualization_ends_with_m "btcusdt" [1, 2, 3] "1m" 2 _ rfl
  exact ⟨rfl, h.2.trans (by decide)⟩

/-! ## Pairs trading (`app/analytics/pairs_trading.py`) -/

/-- Ordinary-least-squares slope of `ys` on `xs` (the closed form computed by
`sklearn.LinearRegression`). -/
def olsSlope (xs ys : List ℚ) : ℚ :=
  ((xs.zip ys).map fun p => (p.1 - listMean xs) * (p.2 - listMean ys)).sum
    / (xs.map fun x => (x - listMean xs) ^ 2).sum

/-- Ordinary-least-squares intercept of `ys` on `xs`. -/
def olsIntercept (xs ys : List ℚ) : ℚ :=
  listMean ys - olsSlope xs ys * listMean xs

/-- `1 - sum((y - y_pred)**2) / sum((y - y.mean())**2)` as computed in
`compute_hedge_ratio`. -/
def olsR2 (xs ys : List ℚ) : ℚ :=
  1 - ((xs.zip ys).map fun p =>
        (p.2 - (olsSlope xs ys * p.1 + olsIntercept xs ys)) ^ 2).sum
    / (ys.map fun y => (y - listMean ys) ^ 2).sum

/-- The close of the first row of a series carrying the given timestamp. -/
def findClose (t : ℚ) : List (ℚ × ℚ) → Option ℚ
  | [] => none
  | r :: rs => if r.1 = t then some r.2 else findClose t rs

/-- `pd.merge(df1[['timestamp','close']], df2[...], on='timestamp')`: inner
join on timestamp in left order; rows are `(close_1, close_2)` pairs.
(Timestamps are assumed distinct per series, as OHLC bucket starts are.) -/
def innerJoinCloses (d1 d2 : List (ℚ × ℚ)) : List (ℚ × ℚ) :=
  d1.filterMap fun r1 => (findClose r1.1 d2).map fun c2 => (r1.2, c2)

/-- The record returned by `compute_hedge_ratio` on the success path. -/
structure HedgeResult where
  symbol1 : String
  symbol2 : String
  hedge_ratio : ℚ
  intercept : ℚ
  r_squared : ℚ
  method : String
  data_points : ℕ
  timeframe : String
deriving DecidableEq

/-- `compute_hedge_ratio` with `method='ols'` (the default; the claim is
about OLS), applied to the two fetched candle series `(timestamp, close)`:
guards `len < 10` before and after the timestamp alignment, then fits
`close_1 = hedge_ratio * close_2 + intercept`. -/
def computeHedgeRatio (symbol1 symbol2 : String) (data1 data2 : List (ℚ × ℚ))
    (timeframe : String) : Except String HedgeResult :=
  if data1.isEmpty ∨ data2.isEmpty ∨ data1.length < 10 ∨ data2.length < 10 then
    .error "Insufficient data"
  else if (innerJoinCloses data1 data2).length < 10 then
    .error "Insufficient aligned data"
  else
    .ok { symbol1 := symbol1
          symbol2 := symbol2
          hedge_ratio :=
            olsSlope ((innerJoinCloses data1 data2).map Prod.snd)
              ((innerJoinCloses data1 data2).map Prod.fst)
          intercept :=
            olsIntercept ((innerJoinCloses data1 data2).map Prod.snd)
              ((innerJoinCloses data1 data2).map Prod.fst)
          r_squared :=
            olsR2 ((innerJoinCloses data1 data2).map Prod.snd)
              ((innerJoinCloses data1 data2).map Prod.fst)
          method := "ols"
          data_points := (innerJoinCloses data1 data2).length
          timeframe := timeframe }

/-- **C7** counterexample to the claim as stated: the 4-point series
A=[10,12,14,16], B=[20,22,24,26] are below the ≥10-point minimum, so
`compute_hedge_ratio` returns the insufficient-data indication, not a result
record. (As given the pair also has slope 1, not the "slope 2" the claimed
hedge ratio 0.5 presumes.) -/
theorem c7_counterexample :
    computeHedgeRatio "aaausdt" "bbbusdt"
        [(0, 10), (1, 12), (2, 14), (3, 16)]
        [(0, 20), (1, 22), (2, 24), (3, 26)] "1m"
      = .error "Insufficient data" := rfl

/-- **C7** (amended): on a perfectly correlated slope-2 pair meeting the
10-point minimum — `A_i = 10 + 2i`, `B_i = 2·A_i` for `i = 0..9` — OLS
returns a result record with hedge ratio exactly `0.5`, intercept `0` and
`R² = 1`. -/
theorem c7_ols_reproducibility :
    computeHedgeRatio "aaausdt" "bbbusdt"
        [(0, 10), (1, 12), (2, 14), (3, 16), (4, 18),
         (5, 20), (6, 22), (7, 24), (8, 26), (9, 28)]
        [(0, 20), (1, 24), (2, 28), (3, 32), (4, 36),
         (5, 40), (6, 44), (7, 48), (8, 52), (9, 56)] "1m"
      = .ok { symbol1 := "aaausdt", symbol2 := "bbbusdt"
              hedge_ratio := 1/2, intercept := 0, r_squared := 1
              method := "ols", data_points := 10, timeframe := "1m" } := by
  norm_num [computeHedgeRatio, innerJoinCloses, findClose, olsSlope,
    olsIntercept, olsR2, listMean, List.filterMap_cons, List.filterMap_nil]

/-! ## Tick-based pairs trading (`app/analytics/tick_pairs_trading.py`) -/

/-- The nearest row (by timestamp distance) within tolerance, ties to the
earlier row: one lookup of `pd.merge_asof(..., direction='nearest',
tolerance=5s)`. -/
def nearestWithin (tol t : ℚ) (rows : List TickR) : Option TickR :=
  rows.foldl
    (fun best r =>
      if |r.ts - t| ≤ tol then
        match best with
        | none => some r
        | some b => if |r.ts - t| < |b.ts - t| then some r else best
      else best)
    none

/-- `merge_asof` over the two sorted tick frames followed by `dropna()`:
for each left tick the matched `(price_1, price_2)` pair, unmatched left
ticks dropped. -/
def mergeAsofPrices (tol : ℚ) (l r : List TickR) : List (ℚ × ℚ) :=
  l.filterMap fun a => (nearestWithin tol a.ts r).map fun b => (a.price, b.price)

/-- The record returned by `compute_spread_from_ticks` on the success path
(provenance fields `method`/`timeframe`/`timestamp` omitted). -/
structure SpreadResult where
  symbol1 : String
  symbol2 : String
  hedge_ratio : ℚ
  intercept : ℚ
  current_spread : ℚ
  spread_mean : ℚ
  spread_std : ℝ
  current_zscore : ℝ
  window : ℕ
  data_points : ℕ

/-- `compute_spread_from_ticks`: guards on emptiness, per-symbol tick count
and aligned count, OLS hedge ratio from the aligned prices, spread series,
rolling mean/std over the trailing `window`, and the guarded z-score —
`(current_spread - mean) / std` only `if spread_std > 0`, else `0.0`. -/
noncomputable def computeSpreadFromTicks (symbol1 symbol2 : String)
    (ticks1 ticks2 : List TickR) (window : ℕ) : Except String SpreadResult :=
  if ticks1.isEmpty ∨ ticks2.isEmpty then .error "Insufficient tick data"
  else if ticks1.length < window ∨ ticks2.length < window then
    .error "Need more ticks for each symbol"
  else if (mergeAsofPrices 5 (sortByTs ticks1) (sortByTs ticks2)).length < window then
    .error "Too few aligned data points"
  else
    .ok { symbol1 := symbol1
          symbol2 := symbol2
          hedge_ratio :=
            olsSlope ((mergeAsofPrices 5 (sortByTs ticks1) (sortByTs ticks2)).map Prod.snd)
              ((mergeAsofPrices 5 (sortByTs ticks1) (sortByTs ticks2)).map Prod.fst)
          intercept :=
            olsIntercept ((mergeAsofPrices 5 (sortByTs ticks1) (sortByTs ticks2)).map Prod.snd)
              ((mergeAsofPrices 5 (sortByTs ticks1) (sortByTs ticks2)).map Prod.fst)
          current_spread :=
            (((mergeAsofPrices 5 (sortByTs ticks1) (sortByTs ticks2)).map fun p =>
                p.1 - olsSlope ((mergeAsofPrices 5 (sortByTs ticks1) (sortByTs ticks2)).map Prod.snd)
                  ((mergeAsofPrices 5 (sortByTs ticks1) (sortByTs ticks2)).map Prod.fst) * p.2).getLast?).getD 0
          spread_mean :=
            listMean (lastWindow window
              ((mergeAsofPrices 5 (sortByTs ticks1) (sortByTs ticks2)).map fun p =>
                p.1 - olsSlope ((mergeAsofPrices 5 (sortByTs ticks1) (sortByTs ticks2)).map Prod.snd)
                  ((mergeAsofPrices 5 (sortByTs ticks1) (sortByTs ticks2)).map Prod.fst) * p.2))
          spread_std :=
            sampleStd (lastWindow window
              ((mergeAsofPrices 5 (sortByTs ticks1) (sortByTs ticks2)).map fun p =>
                p.1 - olsSlope ((mergeAsofPrices 5 (sortByTs ticks1) (sortByTs ticks2)).map Prod.snd)
                  ((mergeAsofPrices 5 (sortByTs ticks1) (sortByTs ticks2)).map Prod.fst) * p.2))
          current_zscore :=
            if 0 < sampleStd (lastWindow window
                ((mergeAsofPrices 5 (sortByTs ticks1) (sortByTs ticks2)).map fun p =>
                  p.1 - olsSlope ((mergeAsofPrices 5 (sortByTs ticks1) (sortByTs ticks2)).map Prod.snd)
                    ((mergeAsofPrices 5 (sortByTs ticks1) (sortByTs ticks2)).map Prod.fst) * p.2)) then
              ((((((mergeAsofPrices 5 (sortByTs ticks1) (sortByTs ticks2)).map fun p =>
                  p.1 - olsSlope ((mergeAsofPrices 5 (sortByTs ticks1) (sortByTs ticks2)).map Prod.snd)
                    ((mergeAsofPrices 5 (sortByTs ticks1) (sortByTs ticks2)).map Prod.fst) * p.2).getLast?).getD 0
                - listMean (lastWindow window
                    ((mergeAsofPrices 5 (sortByTs ticks1) (sortByTs ticks2)).map fun p =>
                      p.1 - olsSlope ((mergeAsofPrices 5 (sortByTs ticks1) (sortByTs ticks2)).map Prod.snd)
                        ((mergeAsofPrices 5 (sortByTs ticks1) (sortByTs ticks2)).map Prod.fst) * p.2)) : ℚ) : ℝ)
                / sampleStd (lastWindow window
                    ((mergeAsofPrices 5 (sortByTs ticks1) (sortByTs ticks2)).map fun p =>
                      p.1 - olsSlope ((mergeAsofPrices 5 (sortByTs ticks1) (sortByTs ticks2)).map Prod.snd)
                        ((mergeAsofPrices 5 (sortByTs ticks1) (sortByTs ticks2)).map Prod.fst) * p.2)))
            else 0
          window := window
          data_points := (mergeAsofPrices 5 (sortByTs ticks1) (sortByTs ticks2)).length }

/-- **C10**: for any accepted pair of tick series, when the rolling standard
deviation of the spread at the latest point is zero the function returns
`current_zscore = 0.0` — the z-score division is guarded, so no
division-by-zero error is reachable. -/
theorem c10_zero_std_zscore_guard (symbol1 symbol2 : String)
    (ticks1 ticks2 : List TickR) (window : ℕ) (r : SpreadResult)
    (h : computeSpreadFromTicks symbol1 symbol2 ticks1 ticks2 window = .ok r)
    (hstd : r.spread_std = 0) :
    r.current_zscore = 0 := by
  unfold computeSpreadFromTicks at h
  split at h
  · exact Except.noConfusion h
  · split at h
    · exact Except.noConfusion h
    · split at h
      · exact Except.noConfusion h
      · rw [Except.ok.injEq] at h
        subst h
        dsimp only at hstd ⊢
        rw [hstd, if_neg (lt_irrefl (0 : ℝ))]

/-- **C10** witness: two 2-tick series with constant first-leg prices give a
constant spread, hence zero rolling std, and the returned z-score is `0`. -/
theorem c10_witness :
    computeSpreadFromTicks "btcusdt" "ethusdt"
        [⟨"btcusdt", 0, 10, 1⟩, ⟨"btcusdt", 1, 10, 1⟩]
        [⟨"ethusdt", 0, 5, 1⟩, ⟨"ethusdt", 1, 7, 1⟩] 2
      = .ok { symbol1 := "btcusdt", symbol2 := "ethusdt"
              hedge_ratio := 0, intercept := 10, current_spread := 10
              spread_mean := 10, spread_std := 0, current_zscore := 0
              window := 2, data_points := 2 } ∧
    (0 : ℝ) = 0 := by
  have heval :
      computeSpreadFromTicks "btcusdt" "ethusdt"
          [⟨"btcusdt", 0, 10, 1⟩, ⟨"btcusdt", 1, 10, 1⟩]
          [⟨"ethusdt", 0, 5, 1⟩, ⟨"ethusdt", 1, 7, 1⟩] 2
        = .ok { symbol1 := "btcusdt", symbol2 := "ethusdt"
                hedge_ratio := 0, intercept := 10, current_spread := 10
                spread_mean := 10, spread_std := 0, current_zscore := 0
                window := 2, data_points := 2 } := by
    norm_num [computeSpreadFromTicks, mergeAsofPrices, nearestWithin, sortByTs,
      insertByTs, olsSlope, olsIntercept, listMean, lastWindow, sampleStd,
      sampleVar, List.filterMap_cons, List.filterMap_nil]
  refine ⟨heval, ?_⟩
  exact c10_zero_std_zscore_guard "btcusdt" "ethusdt" _ _ 2 _ heval rfl

end QuantStream
